import Mathlib

/-!
Shallow embedding of `src/src/js/background/controllers/hub.js` (the `Hub`
class: a HATEOAS relation-resolution client over an HTTP transport).

JavaScript values are modelled by `JSValue`, thrown JS errors by `JSError`.
An async (promise-returning) computation is modelled by `Except JSError α`
together with the list of HTTP requests it issued; the network is an oracle
`Net` mapping each request to its outcome.  A synchronous throw that happens
before any promise exists is kept distinct from a promise rejection wherever
the distinction is observable: a `.catch` attached to the return value of a
non-async method only sees rejections, not the method's own synchronous
throws.
-/

/-- A JavaScript runtime value (the fragment the Hub client manipulates:
JSON data plus `undefined`). -/
inductive JSValue where
  | undefined
  | null
  | boolean (b : Bool)
  | num (n : Int)
  | str (s : String)
  | obj (fields : List (String × JSValue))
  | arr (elems : List JSValue)

/-- A thrown JavaScript error: either a runtime `TypeError` or a
`new Error(message)` whose constructor argument is kept verbatim. -/
inductive JSError where
  | typeError (msg : String)
  | jsError (message : JSValue)

/-- First binding of a key in a JS object's field list (insertion order). -/
def lookupField : List (String × JSValue) → String → Option JSValue
  | [], _ => none
  | (k, v) :: rest, key => if k == key then some v else lookupField rest key

/-- Total JS property read: a missing field, or a primitive receiver, yields
`undefined`.  (Reads on `null`/`undefined` receivers go through `propAccess`.) -/
def getFieldT : JSValue → String → JSValue
  | .obj fs, key => (lookupField fs key).getD .undefined
  | _, _ => .undefined

/-- JS property read as the runtime performs it: reading a property of
`null` or `undefined` throws a `TypeError`. -/
def propAccess : JSValue → String → Except JSError JSValue
  | .null, key =>
      .error (.typeError ("Cannot read properties of null (reading " ++ key ++ ")"))
  | .undefined, key =>
      .error (.typeError ("Cannot read properties of undefined (reading " ++ key ++ ")"))
  | v, key => .ok (getFieldT v key)

/-- JS truthiness (no NaN in this value model; `num` is an integer). -/
def jsTruthy : JSValue → Bool
  | .undefined => false
  | .null => false
  | .boolean b => b
  | .num n => n != 0
  | .str s => s != ""
  | .obj _ => true
  | .arr _ => true

/-- JS strict equality `===`.  Objects and arrays compare by reference; at
every comparison site in this file the two sides have distinct provenance
(a fetched field against a string or a value destructured elsewhere), so a
composite operand is never strictly equal to the other side. -/
def jsStrictEq : JSValue → JSValue → Bool
  | .undefined, .undefined => true
  | .null, .null => true
  | .boolean a, .boolean b => a == b
  | .num a, .num b => a == b
  | .str a, .str b => a == b
  | _, _ => false

/-- Set (or overwrite, keeping its position) a field of a JS object's field
list; a fresh key is appended, as JS property creation does. -/
def setField : List (String × JSValue) → String → JSValue → List (String × JSValue)
  | [], key, v => [(key, v)]
  | (k, w) :: rest, key, v =>
      if k == key then (k, v) :: rest else (k, w) :: setField rest key v

/-- String conversion of the primitive cases of `ToString(v)` in JS.
Composite receivers: a plain object prints as the tag below; array elements
are joined by `jsToString`. -/
def jsPrimToString : JSValue → String
  | .undefined => "undefined"
  | .null => "null"
  | .boolean b => cond b "true" "false"
  | .num n => toString n
  | .str s => s
  | .obj _ => "[object Object]"
  | .arr _ => ""

/-- JS `ToString` as used by template literals and query-parameter values in
this file.  Arrays are joined one level deep (no call site in the embedded
code ever stringifies an array, let alone a nested one). -/
def jsToString : JSValue → String
  | .arr es => String.intercalate "," (es.map jsPrimToString)
  | v => jsPrimToString v

/- ### URL model (the WHATWG `URL` fragment the Hub client exercises) -/

/-- Does the character list start with the given pattern? -/
def hasLead : List Char → List Char → Bool
  | [], _ => true
  | _ :: _, [] => false
  | p :: ps, c :: cs => p == c && hasLead ps cs

/-- Uppercase hex digit for a value below 16. -/
def hexDigitChar (n : Nat) : Char :=
  if n < 10 then Char.ofNat (48 + n) else Char.ofNat (55 + n)

/-- UTF-8 bytes of a code point. -/
def utf8Bytes (n : Nat) : List Nat :=
  if n < 128 then [n]
  else if n < 2048 then [192 + n / 64, 128 + n % 64]
  else if n < 65536 then [224 + n / 4096, 128 + (n / 64) % 64, 128 + n % 64]
  else [240 + n / 262144, 128 + (n / 4096) % 64, 128 + (n / 64) % 64, 128 + n % 64]

/-- Percent-escape of one byte. -/
def percentByte (b : Nat) : List Char :=
  ['%', hexDigitChar (b / 16), hexDigitChar (b % 16)]

/-- One character under `application/x-www-form-urlencoded` serialization
(the serialization `URLSearchParams` uses). -/
def formEncodeChar (c : Char) : List Char :=
  if c.isAlphanum || c == '*' || c == '-' || c == '.' || c == '_' then [c]
  else if c == ' ' then ['+']
  else ((utf8Bytes c.toNat).map percentByte).flatten

/-- `application/x-www-form-urlencoded` serialization of a string. -/
def formEncode (s : String) : String :=
  String.mk ((s.data.map formEncodeChar).flatten)

/-- A parsed absolute URL: scheme, host, pathname, and the search-parameter
list in order. -/
structure URL where
  scheme : String
  host : String
  pathname : String
  searchParams : List (String × String)
deriving DecidableEq

/-- Split a character list at the first occurrence of `sep`; `none` when
`sep` does not occur. -/
def splitFirstOn (sep : List Char) : List Char → Option (List Char × List Char)
  | [] => none
  | c :: cs =>
      if hasLead sep (c :: cs) then some ([], (c :: cs).drop sep.length)
      else
        match splitFirstOn sep cs with
        | none => none
        | some (a, b) => some (c :: a, b)

/-- Split a character list at every occurrence of the character `sep`. -/
def splitAllOn (sep : Char) : List Char → List (List Char)
  | [] => [[]]
  | c :: cs =>
      if c == sep then [] :: splitAllOn sep cs
      else
        match splitAllOn sep cs with
        | [] => [[c]]
        | h :: t => (c :: h) :: t

/-- Parse a query string (text after `?`) into parameters.  The concrete URLs
this development evaluates contain no percent-escapes, so no decoding step
is modelled. -/
def parseQuery (cs : List Char) : List (String × String) :=
  if cs == [] then []
  else
    (splitAllOn '&' cs).map fun kv =>
      match splitFirstOn ['='] kv with
      | none => (String.mk kv, "")
      | some (k, v) => (String.mk k, String.mk v)

/-- `new URL(s)` on an absolute URL string: `none` models the constructor
throwing a `TypeError` (empty input, no scheme, empty host). -/
def URL.parse (s : String) : Option URL :=
  match splitFirstOn ("://".data) s.data with
  | none => none
  | some (schemeCs, rest) =>
      if schemeCs == [] || !(schemeCs.all Char.isAlpha) then none
      else
        let hostQ := match splitFirstOn ['?'] rest with
          | none => (rest, [])
          | some (a, b) => (a, b)
        let hostPath := match splitFirstOn ['/'] hostQ.1 with
          | none => (hostQ.1, [])
          | some (a, b) => (a, b)
        if hostPath.1 == [] then none
        else
          some { scheme := String.mk schemeCs,
                 host := String.mk hostPath.1,
                 pathname := String.mk ('/' :: hostPath.2),
                 searchParams := parseQuery hostQ.2 }

/-- `url.toString()`: serialize, re-encoding the search parameters the way
`URLSearchParams` does. -/
def URL.toString (u : URL) : String :=
  u.scheme ++ "://" ++ u.host ++ u.pathname ++
    match u.searchParams with
    | [] => ""
    | ps =>
        "?" ++ String.intercalate "&"
          (ps.map fun kv => formEncode kv.1 ++ "=" ++ formEncode kv.2)

/- ### HTTP transport (`Hub.fetch`, `Hub.get`, `Hub.post`, `Hub.getRequestUrl`) -/

/-- `store.getState('hubOrigin') || ''`: the stored Hub origin, the empty
string when unset. -/
def getOrigin (st : Option String) : String := st.getD ""

/-- The `fetchOpts` object a caller may pass to `get`/`post` (no caller ever
supplies `method` or `credentials` there). -/
structure FetchInit where
  headers : List (String × String) := []
  body : Option String := none

/-- The options object after `Object.assign({ method }, fetchOpts)`. -/
structure FetchOpts where
  method : String
  headers : List (String × String)
  body : Option String

/-- `Object.assign({ method }, fetchOpts)` for the call sites that exist. -/
def mkFetchOpts (method : String) (init? : Option FetchInit) : FetchOpts :=
  let init := init?.getD {}
  { method := method, headers := init.headers, body := init.body }

/-- The request the `fetch` primitive receives, after
`Object.assign({ credentials: 'include' }, _opts)`. -/
structure HttpRequest where
  url : URL
  method : String
  headers : List (String × String)
  body : Option String
  credentials : String

/-- Build the request `Hub.fetch` hands to the `fetch` primitive. -/
def requestOf (url : URL) (opts : FetchOpts) : HttpRequest :=
  { url := url, method := opts.method, headers := opts.headers,
    body := opts.body, credentials := "include" }

/-- A network response as `Hub.fetch` observes it: the `ok` flag and the
result of `response.json()` (`none` when the body is not valid JSON and
`response.json()` rejects). -/
structure HttpResponse where
  ok : Bool
  json : Option JSValue

/-- Outcome of the `fetch` primitive for one request: the promise rejects
(network failure) or resolves with a response. -/
inductive FetchOutcome where
  | reject
  | respond (r : HttpResponse)

/-- The network oracle. -/
abbrev Net := HttpRequest → FetchOutcome

/-- `Hub.fetch(url, _opts)`: adds `credentials: 'include'`, performs the
request, decodes the body with `response.json().catch(() => null)`, and on a
non-ok status throws `new Error(body.errorMessage)` — a property read that
itself throws a `TypeError` when the decoded body is `null`. -/
def hubFetch (net : Net) (url : URL) (opts : FetchOpts) : Except JSError JSValue :=
  match net (requestOf url opts) with
  | .reject => .error (.typeError "Failed to fetch")
  | .respond r =>
      let body := r.json.getD JSValue.null
      if r.ok then .ok body
      else
        match propAccess body "errorMessage" with
        | .error e => .error e
        | .ok msg => .error (.jsError msg)

/-- `Hub.getRequestUrl(baseUrl, queryMap = {})`: a root-relative base is
resolved against the stored origin by `url = new URL(origin);
url.pathname = baseUrl`; otherwise `url = new URL(baseUrl)`.  Each
`queryMap` entry is appended to `url.searchParams` in insertion order.  A
non-string `baseUrl` throws at `baseUrl.startsWith('/')`; an unparsable URL
string throws in the `URL` constructor.  Both throws are synchronous. -/
def getRequestUrl (st : Option String) (baseUrl : JSValue)
    (queryMap : List (String × JSValue)) : Except JSError URL :=
  let origin := getOrigin st
  match baseUrl with
  | .str s =>
      match
        (if hasLead ['/'] s.data then
          (URL.parse origin).map fun u => { u with pathname := s }
        else URL.parse s) with
      | none => .error (.typeError "Failed to construct URL: Invalid URL")
      | some u =>
          .ok { u with
                searchParams :=
                  u.searchParams ++ queryMap.map fun kv => (kv.1, jsToString kv.2) }
  | _ => .error (.typeError "baseUrl.startsWith is not a function")

/-- `Hub.get(baseUrl, { queryMap, fetchOpts } = {})`.  The returned pair is
(requests issued, outer `Except`): the outer layer is `get`'s own
synchronous behaviour (a URL-construction throw escapes any `.catch`
attached to the call), the inner layer the settlement of the promise
returned by `Hub.fetch`. -/
def hubGet (st : Option String) (net : Net) (baseUrl : JSValue)
    (queryMap : Option (List (String × JSValue))) (fetchOpts : Option FetchInit) :
    List HttpRequest × Except JSError (Except JSError JSValue) :=
  match getRequestUrl st baseUrl (queryMap.getD []) with
  | .error e => ([], .error e)
  | .ok url =>
      let opts := mkFetchOpts "GET" fetchOpts
      ([requestOf url opts], .ok (hubFetch net url opts))

/-- `Hub.post(baseUrl, { queryMap, fetchOpts } = {})`, as `hubGet` with
method `POST`. -/
def hubPost (st : Option String) (net : Net) (baseUrl : JSValue)
    (queryMap : Option (List (String × JSValue))) (fetchOpts : Option FetchInit) :
    List HttpRequest × Except JSError (Except JSError JSValue) :=
  match getRequestUrl st baseUrl (queryMap.getD []) with
  | .error e => ([], .error e)
  | .ok url =>
      let opts := mkFetchOpts "POST" fetchOpts
      ([requestOf url opts], .ok (hubFetch net url opts))

/- ### Relation resolver -/

/-- A server resource as the relation resolver sees it: its link collection
(keyed by relation name, each entry a list of target URLs) plus the rest of
the payload. -/
structure Resource where
  links : List (String × List String)
  fields : List (String × JSValue)

/-- Modelled from the spec: `HateoasModel.getFirstLink` — the file
`src/js/background/models/hateoas-model.js` is not part of the corpus.  Per
the spec, a resource exposes a link collection keyed by relation name, each
entry yielding zero or more navigable URLs with the first authoritative;
lookup is case-sensitive and absence is distinct from an empty target list.
An absent relation (or one with an empty target list) has no first link, so
the surrounding JS receives `undefined`. -/
def getFirstLink (model : Resource) (relationship : String) : JSValue :=
  match model.links.lookup relationship with
  | none => .undefined
  | some [] => .undefined
  | some (u :: _) => .str u

/-- `Hub.getRelation(model, relationship)`: resolves the first link of the
relation and issues a GET with the `limit: 10000` page-size override,
attaching `.catch(() => null)`.  `getRelation` is not async: a synchronous
throw inside `this.get(...)` (undefined or unparsable relation URL) escapes
the `.catch` and propagates to the caller; only a rejection of the fetch
promise is converted to `null`. -/
def getRelation (st : Option String) (net : Net) (model : Resource)
    (relationship : String) : List HttpRequest × Except JSError JSValue :=
  let relationUrl := getFirstLink model relationship
  match hubGet st net relationUrl (some [("limit", JSValue.num 10000)]) none with
  | (log, .error e) => (log, .error e)
  | (log, .ok outcome) =>
      (log, .ok (match outcome with
                 | .error _ => JSValue.null
                 | .ok v => v))

/-- `Hub.getListRelation(model, relationship)`:
`response ? response.items : []` — a truthiness test, not a null test. -/
def getListRelation (st : Option String) (net : Net) (model : Resource)
    (relationship : String) : List HttpRequest × Except JSError JSValue :=
  match getRelation st net model relationship with
  | (log, .error e) => (log, .error e)
  | (log, .ok response) =>
      (log, .ok (if jsTruthy response then getFieldT response "items" else .arr []))

/- ### Session operations -/

/-- `Hub.login({ username, password })`: fails fast when no origin is saved;
then awaits `Permissions.requestUrl(origin)` (an external collaborator,
passed here as the `perm` argument — any failure propagates); then POSTs the
form-urlencoded body built by direct template-literal interpolation.  The
enclosing async function flattens `post`'s synchronous throw and the fetch
promise's settlement into one rejection channel. -/
def login (st : Option String) (net : Net) (perm : String → Except JSError Unit)
    (username password : String) : List HttpRequest × Except JSError JSValue :=
  let origin := getOrigin st
  if origin == "" then ([], .error (.jsError (.str "No Hub origin saved")))
  else
    match perm origin with
    | .error e => ([], .error e)
    | .ok _ =>
        match hubPost st net (.str "/j_spring_security_check") none
            (some { headers :=
                      [("Content-type", "application/x-www-form-urlencoded; charset=UTF-8")],
                    body := some ("j_username=" ++ username ++ "&j_password=" ++ password) }) with
        | (log, .error e) => (log, .error e)
        | (log, .ok outcome) => (log, outcome)

/- ### Graph traversal operations -/

/-- `Promise.all` over already-started branches: resolves with the results in
input order, or rejects with the first rejection in that order.  (The
branches' requests are issued regardless; request logs are collected
separately at each use site.) -/
def promiseAll {α : Type} : List (Except JSError α) → Except JSError (List α)
  | [] => .ok []
  | .error e :: _ => .error e
  | .ok v :: rest => (promiseAll rest).map (v :: ·)

/-- The `detailsUrl` computed for one vulnerability inside
`Hub.getComponentVulnerabilities`: source `NVD` points at the NVD search URL
templated with the vulnerability name, source `VULNDB` at a path on the
stored origin, anything else yields the initial empty string. -/
def vulnDetailsUrl (st : Option String) (vulnerability : JSValue) : String :=
  if jsStrictEq (getFieldT vulnerability "source") (.str "NVD") then
    "https://web.nvd.nist.gov/view/vuln/search-results?query=" ++
      jsToString (getFieldT vulnerability "vulnerabilityName") ++
      "&search_type=all&cves=on"
  else if jsStrictEq (getFieldT vulnerability "source") (.str "VULNDB") then
    getOrigin st ++ "/#vulnerabilities/id:" ++
      jsToString (getFieldT vulnerability "vulnerabilityName") ++ "/view:overview"
  else ""

/-- The body of the `vulnerabilities.map(...)` callback:
`Object.assign(vulnerability, { detailsUrl })`.  `Object.assign` throws on a
`null`/`undefined` target; a primitive target is boxed in JS (the box is not
representable here and no call site produces one), an array target gains an
expando property invisible to this value model. -/
def vulnWithDetailsUrl (st : Option String) (vulnerability : JSValue) :
    Except JSError JSValue :=
  let detailsUrl := vulnDetailsUrl st vulnerability
  match vulnerability with
  | .null => .error (.typeError "Cannot convert undefined or null to object")
  | .undefined => .error (.typeError "Cannot convert undefined or null to object")
  | .obj fs => .ok (.obj (setField fs "detailsUrl" (.str detailsUrl)))
  | other => .ok other

/-- `Array.prototype.map` with a callback that can throw: the first throw
aborts the whole map. -/
def mapVulns (st : Option String) : List JSValue → Except JSError (List JSValue)
  | [] => .ok []
  | v :: rest =>
      match vulnWithDetailsUrl st v with
      | .error e => .error e
      | .ok v' => (mapVulns st rest).map (v' :: ·)

/-- `Hub.getComponentVulnerabilities(componentVersion)`: fetches the
`vulnerabilities` list relation and maps each entry through the
`detailsUrl` enrichment.  A non-array result makes `.map` throw. -/
def getComponentVulnerabilities (st : Option String) (net : Net)
    (componentVersion : Resource) : List HttpRequest × Except JSError JSValue :=
  match getListRelation st net componentVersion "vulnerabilities" with
  | (log, .error e) => (log, .error e)
  | (log, .ok vulnerabilities) =>
      match vulnerabilities with
      | .arr items =>
          (log, (mapVulns st items).map (fun items' => .arr items'))
      | _ => (log, .error (.typeError "vulnerabilities.map is not a function"))

/-- `Hub.getProjectVersionComponents(projectVersion)`. -/
def getProjectVersionComponents (st : Option String) (net : Net)
    (projectVersion : Resource) : List HttpRequest × Except JSError JSValue :=
  getListRelation st net projectVersion "components"

/-- The `bomComponents.filter(({ componentVersion }) => componentVersion ===
version)` step of `getMatchingBOMComponents`: destructuring a `null` or
`undefined` element throws; otherwise keep the elements whose
`componentVersion` field is strictly equal to `version`. -/
def filterBomComponents (version : JSValue) :
    List JSValue → Except JSError (List JSValue)
  | [] => .ok []
  | c :: rest =>
      match c with
      | .null => .error (.typeError "Cannot destructure componentVersion of null")
      | .undefined => .error (.typeError "Cannot destructure componentVersion of undefined")
      | _ =>
          (filterBomComponents version rest).map fun tail =>
            if jsStrictEq (getFieldT c "componentVersion") version then c :: tail
            else tail

/-- One fan-out branch of `getMatchingBOMComponents`: fetch the project
version's BOM components and filter them against the external component's
`version`. -/
def matchingBomBranch (st : Option String) (net : Net) (version : JSValue)
    (projectVersion : Resource) : List HttpRequest × Except JSError (List JSValue) :=
  match getProjectVersionComponents st net projectVersion with
  | (log, .error e) => (log, .error e)
  | (log, .ok bomComponents) =>
      match bomComponents with
      | .arr items => (log, filterBomComponents version items)
      | _ => (log, .error (.typeError "bomComponents.filter is not a function"))

/-- `Hub.getMatchingBOMComponents({ version }, projectVersions)`: fan out
over the project versions, filter each BOM by strict equality of
`componentVersion` against `version`, and flatten with
`Array.prototype.concat.apply([], componentArrays)` in input order. -/
def getMatchingBOMComponents (st : Option String) (net : Net)
    (externalComponent : JSValue) (projectVersions : List Resource) :
    List HttpRequest × Except JSError JSValue :=
  match externalComponent with
  | .null => ([], .error (.typeError "Cannot destructure version of null"))
  | .undefined => ([], .error (.typeError "Cannot destructure version of undefined"))
  | ec =>
      let version := getFieldT ec "version"
      let results := projectVersions.map (matchingBomBranch st net version)
      ((results.map Prod.fst).flatten,
        (promiseAll (results.map Prod.snd)).map fun componentArrays =>
          .arr componentArrays.flatten)

/-- `Hub.getComponentVersionReferences(componentVersion)`. -/
def getComponentVersionReferences (st : Option String) (net : Net)
    (componentVersion : Resource) : List HttpRequest × Except JSError JSValue :=
  getListRelation st net componentVersion "references"

/-- `Hub.getReferenceProjectVersion({ projectName, projectVersionUrl } = {})`:
GETs the reference's `projectVersionUrl` with `.catch(() => null)` (again,
only the fetch promise's rejection is converted — a synchronous throw while
building the URL escapes the `.catch` and rejects this async function), and
decorates a truthy result with `projectVersion.projectName = projectName`
(a strict-mode assignment: it throws on a truthy primitive receiver; an
array receiver gains an expando property invisible to this value model). -/
def getReferenceProjectVersion (st : Option String) (net : Net)
    (reference : JSValue) : List HttpRequest × Except JSError JSValue :=
  match reference with
  | .null => ([], .error (.typeError "Cannot destructure projectName of null"))
  | r =>
      let projectName := getFieldT r "projectName"
      let projectVersionUrl := getFieldT r "projectVersionUrl"
      match hubGet st net projectVersionUrl none none with
      | (log, .error e) => (log, .error e)
      | (log, .ok outcome) =>
          let projectVersion := match outcome with
            | .error _ => JSValue.null
            | .ok v => v
          if jsTruthy projectVersion then
            match projectVersion with
            | .obj fs => (log, .ok (.obj (setField fs "projectName" projectName)))
            | .arr es => (log, .ok (.arr es))
            | _ => (log, .error (.typeError "Cannot create property projectName"))
          else (log, .ok projectVersion)

/-- `Hub.getComponentVersionReferenceProjects(componentVersion)`: fetch the
`references` list relation, then `Promise.all` the per-reference project
version fetches, results in input order. -/
def getComponentVersionReferenceProjects (st : Option String) (net : Net)
    (componentVersion : Resource) : List HttpRequest × Except JSError JSValue :=
  match getComponentVersionReferences st net componentVersion with
  | (log, .error e) => (log, .error e)
  | (log, .ok references) =>
      match references with
      | .arr refs =>
          let results := refs.map (getReferenceProjectVersion st net)
          (log ++ (results.map Prod.fst).flatten,
            (promiseAll (results.map Prod.snd)).map fun pvs => .arr pvs)
      | _ => (log, .error (.typeError "references.map is not a function"))

/- ### Concrete scenarios used by the verification below -/

/-- A configured Hub origin. -/
def stHub : Option String := some "https://hub.example.com"

/-- A network on which every fetch promise rejects. -/
def netReject : Net := fun _ => .reject

/-- A network on which every request succeeds with the JSON body `0`. -/
def netNumZero : Net := fun _ => .respond { ok := true, json := some (.num 0) }

/-- A resource with an empty link collection. -/
def emptyLinksResource : Resource := { links := [], fields := [] }

/-- A resource carrying a `components` link. -/
def componentsResource : Resource :=
  { links := [("components", ["https://hub.example.com/api/comp"])], fields := [] }

/-- A resource carrying a `vulnerabilities` link. -/
def vulnResource : Resource :=
  { links := [("vulnerabilities", ["https://hub.example.com/api/v1/vulns"])], fields := [] }

/-- A vulnerability entry from source `NVD`. -/
def vulnNVD : JSValue :=
  .obj [("source", .str "NVD"), ("vulnerabilityName", .str "CVE-2020-1")]

/-- A vulnerability entry from source `VULNDB`. -/
def vulnVULNDB : JSValue :=
  .obj [("source", .str "VULNDB"), ("vulnerabilityName", .str "CVE-2020-1")]

/-- A vulnerability entry from an unrecognised source. -/
def vulnOTHER : JSValue :=
  .obj [("source", .str "OTHER"), ("vulnerabilityName", .str "CVE-2020-1")]

/-- A network serving the three vulnerability entries above as an `items`
collection. -/
def netVulns : Net := fun _ =>
  .respond { ok := true, json := some (.obj [("items", .arr [vulnNVD, vulnVULNDB, vulnOTHER])]) }

/-- A concrete request URL. -/
def urlW : URL :=
  { scheme := "https", host := "hub.example.com", pathname := "/x", searchParams := [] }

/-- The HTTP-failure response body carrying an `errorMessage` field. -/
def respBoom : HttpResponse :=
  { ok := false, json := some (.obj [("errorMessage", .str "boom")]) }

/-- A network on which every request fails with status failure and the body
above. -/
def netBoom : Net := fun _ => .respond respBoom

/-- The URL of `https://hub.example.com` itself. -/
def hubBaseURL : URL :=
  { scheme := "https", host := "hub.example.com", pathname := "/", searchParams := [] }

/-- A permission collaborator that always grants. -/
def permOk : String → Except JSError Unit := fun _ => .ok ()

/-- BOM entry of pv1 with `componentVersion` `"V1"`. -/
def bomC11 : JSValue := .obj [("componentVersion", .str "V1"), ("name", .str "c11")]

/-- BOM entry of pv1 with `componentVersion` `"V2"`. -/
def bomC12 : JSValue := .obj [("componentVersion", .str "V2"), ("name", .str "c12")]

/-- BOM entry of pv2 with `componentVersion` `"V1"`. -/
def bomC21 : JSValue := .obj [("componentVersion", .str "V1"), ("name", .str "c21")]

/-- Project version pv1, whose `components` link serves `[bomC11, bomC12]`. -/
def pv1 : Resource :=
  { links := [("components", ["https://hub.example.com/api/pv1/components"])], fields := [] }

/-- Project version pv2, whose `components` link serves `[bomC21]`. -/
def pv2 : Resource :=
  { links := [("components", ["https://hub.example.com/api/pv2/components"])], fields := [] }

/-- A network serving pv1's and pv2's BOM component collections. -/
def netBom : Net := fun req =>
  if req.url.pathname = "/api/pv1/components" then
    .respond { ok := true, json := some (.obj [("items", .arr [bomC11, bomC12])]) }
  else if req.url.pathname = "/api/pv2/components" then
    .respond { ok := true, json := some (.obj [("items", .arr [bomC21])]) }
  else .reject

/-- The per-project-version BOM contents served by `netBom`. -/
def bomOf : Resource → List JSValue := fun pv =>
  if pv.links.lookup "components" = some ["https://hub.example.com/api/pv1/components"] then
    [bomC11, bomC12]
  else [bomC21]

/-- The external component with `version` `"V1"`. -/
def extCompV1 : JSValue := .obj [("version", .str "V1")]

/-- A component version whose `references` link serves two references. -/
def cvRefsResource : Resource :=
  { links := [("references", ["https://hub.example.com/api/cv/refs"])], fields := [] }

/-- A project reference whose project-version fetch succeeds. -/
def refP1 : JSValue :=
  .obj [("projectName", .str "P1"),
        ("projectVersionUrl", .str "https://hub.example.com/api/pv1")]

/-- A project reference whose project-version fetch fails. -/
def refP2 : JSValue :=
  .obj [("projectName", .str "P2"),
        ("projectVersionUrl", .str "https://hub.example.com/api/pv2")]

/-- The fields of the project version behind `refP1`. -/
def pv1Fields : List (String × JSValue) := [("versionName", .str "1.0.0")]

/-- A network serving the reference list, resolving `refP1`'s project
version and rejecting `refP2`'s. -/
def netRefs : Net := fun req =>
  if req.url.pathname = "/api/cv/refs" then
    .respond { ok := true, json := some (.obj [("items", .arr [refP1, refP2])]) }
  else if req.url.pathname = "/api/pv1" then
    .respond { ok := true, json := some (.obj pv1Fields) }
  else .reject

/-- The expected per-reference outcome on `netRefs`: `refP1`'s project
version decorated with its project name, `null` for `refP2`. -/
def refOutcome : JSValue → JSValue := fun ref =>
  if jsStrictEq (getFieldT ref "projectName") (.str "P1") then
    .obj (setField pv1Fields "projectName" (.str "P1"))
  else JSValue.null

/-- The request URL `getRelation` builds for `vulnResource`'s
`vulnerabilities` link (page-size override appended). -/
def vulnsRelReqUrl : URL :=
  { scheme := "https", host := "hub.example.com", pathname := "/api/v1/vulns",
    searchParams := [("limit", "10000")] }

/-- The request URL behind `refP1`'s `projectVersionUrl`. -/
def pv1ReqUrl : URL :=
  { scheme := "https", host := "hub.example.com", pathname := "/api/pv1",
    searchParams := [] }

/-- The request URL behind `refP2`'s `projectVersionUrl`. -/
def pv2ReqUrl : URL :=
  { scheme := "https", host := "hub.example.com", pathname := "/api/pv2",
    searchParams := [] }

/-- A permission collaborator that always denies. -/
def permFail : String → Except JSError Unit := fun _ => .error (.jsError (.str "denied"))

/- ### Helper lemmas -/

/-- `Promise.all` over branches that all resolve resolves with the results
in input order. -/
theorem promiseAll_map_ok {α β : Type} (l : List α) (f : α → Except JSError β)
    (g : α → β) (h : ∀ x ∈ l, f x = .ok (g x)) :
    promiseAll (l.map f) = .ok (l.map g) := by
  induction l with
  | nil => rfl
  | cons x xs ih =>
      have hx := h x (List.mem_cons_self x xs)
      have hxs := ih fun y hy => h y (List.mem_cons_of_mem x hy)
      simp [promiseAll, hx, hxs, Except.map]

/-- When the fetch promise rejects or the response status is a failure,
`Hub.fetch` yields an error (never a value). -/
theorem hubFetch_fail_error (net : Net) (url : URL) (opts : FetchOpts)
    (h : ∀ r, net (requestOf url opts) = .respond r → r.ok = false) :
    ∃ e, hubFetch net url opts = .error e := by
  unfold hubFetch
  cases hn : net (requestOf url opts) with
  | reject => exact ⟨_, rfl⟩
  | respond r =>
      have hr := h r hn
      cases hj : propAccess (r.json.getD JSValue.null) "errorMessage" with
      | error e => exact ⟨e, by simp [hr, hj]⟩
      | ok msg => exact ⟨.jsError msg, by simp [hr, hj]⟩

/-- The BOM filter equals `List.filter` by strict equality of the
`componentVersion` field whenever no element is `null` or `undefined`. -/
theorem filterBomComponents_eq_filter (version : JSValue) (items : List JSValue)
    (h : ∀ c ∈ items, c ≠ .null ∧ c ≠ .undefined) :
    filterBomComponents version items
      = .ok (items.filter fun c => jsStrictEq (getFieldT c "componentVersion") version) := by
  induction items with
  | nil => rfl
  | cons c rest ih =>
      have hc := h c (List.mem_cons_self c rest)
      have hrest := ih fun y hy => h y (List.mem_cons_of_mem c hy)
      cases c with
      | null => exact absurd rfl hc.1
      | undefined => exact absurd rfl hc.2
      | _ =>
          simp only [filterBomComponents, hrest, Except.map, List.filter_cons]

/- ### Claim theorems -/

/-- C1: the claim states that for a relation name absent from the resource's
link collection, `getRelation` returns `null` and the fetch primitive is
never invoked.  Evaluating the code at such an input: no request is issued
(the log is empty), but instead of `null` the call throws a `TypeError` —
the absent relation's undefined URL reaches `baseUrl.startsWith('/')`, and
because `get` is not async this synchronous throw escapes the
`.catch(() => null)`. -/
theorem c1_absent_relation_throws :
    getRelation stHub netReject emptyLinksResource "references"
      = ([], .error (.typeError "baseUrl.startsWith is not a function")) := rfl

/-- C3 counterexample: a fetch that resolves with the falsy JSON body `0`
makes `getListRelation` return `[]` although `getRelation` returned `0`,
not `null` — refuting "returns the empty sequence exactly when getRelation
returns null". -/
theorem c3_falsy_not_null_counterexample :
    (getRelation stHub netNumZero componentsResource "components").2 = .ok (.num 0)
    ∧ (getListRelation stHub netNumZero componentsResource "components").2 = .ok (.arr [])
    ∧ JSValue.num 0 ≠ JSValue.null :=
  ⟨rfl, rfl, nofun⟩

/-- C3 amended: when `getRelation` resolves with a value `v`,
`getListRelation` resolves with `v`'s `items` field if `v` is truthy and
with `[]` if `v` is falsy (`null` included); when `getRelation` throws or
rejects, `getListRelation` fails with the same error. -/
theorem c3_list_relation_of_relation (st : Option String) (net : Net)
    (model : Resource) (relationship : String) :
    (∀ v, (getRelation st net model relationship).2 = .ok v →
      (getListRelation st net model relationship).2
        = .ok (if jsTruthy v then getFieldT v "items" else .arr []))
    ∧ (∀ e, (getRelation st net model relationship).2 = .error e →
      (getListRelation st net model relationship).2 = .error e) := by
  constructor
  · intro v hv
    unfold getListRelation
    cases hgr : getRelation st net model relationship with
    | mk log x =>
        rw [hgr] at hv
        simp at hv
        subst hv
        simp
  · intro e he
    unfold getListRelation
    cases hgr : getRelation st net model relationship with
    | mk log x =>
        rw [hgr] at he
        simp at he
        subst he
        simp

/-- C3 amended, witnessed at the counterexample scenario. -/
theorem c3_list_relation_of_relation_witness :
    (getRelation stHub netNumZero componentsResource "components").2 = .ok (.num 0)
    ∧ (getListRelation stHub netNumZero componentsResource "components").2
        = .ok (if jsTruthy (.num 0) then getFieldT (.num 0) "items" else .arr []) :=
  ⟨rfl,
    (c3_list_relation_of_relation stHub netNumZero componentsResource "components").1
      (.num 0) rfl⟩

/-- C5: with stored Origin `https://hub.example.com`, the root-relative base
`/api/v1/x` with query `a=1` resolves against the Origin with the query
appended; query entries keep insertion order; an absolute base bypasses the
Origin unchanged. -/
theorem c5_buildUrl_resolution :
    ((getRequestUrl stHub (.str "/api/v1/x") [("a", .str "1")]).toOption.map URL.toString
      = some "https://hub.example.com/api/v1/x?a=1")
    ∧ ((getRequestUrl stHub (.str "https://other.example.com/y") []).toOption.map URL.toString
      = some "https://other.example.com/y")
    ∧ ((getRequestUrl stHub (.str "/api/v1/x")
          [("a", .str "1"), ("b", .str "2")]).toOption.map URL.toString
      = some "https://hub.example.com/api/v1/x?a=1&b=2") :=
  ⟨rfl, rfl, rfl⟩

/-- C2: for a relation present in the resource's link collection, when the
transport fetch of the relation URL fails — the promise rejects or the
response status signals failure — `getRelation` resolves with `null` and no
error reaches its caller. -/
theorem c2_present_relation_fetch_failure_yields_null
    (st : Option String) (net : Net) (model : Resource) (relationship u : String)
    (rest : List String) (requrl : URL)
    (hlink : model.links.lookup relationship = some (u :: rest))
    (hurl : getRequestUrl st (.str u) [("limit", JSValue.num 10000)] = .ok requrl)
    (hfail : ∀ r, net (requestOf requrl (mkFetchOpts "GET" none)) = .respond r → r.ok = false) :
    getRelation st net model relationship
      = ([requestOf requrl (mkFetchOpts "GET" none)], .ok JSValue.null) := by
  have hfirst : getFirstLink model relationship = .str u := by
    simp [getFirstLink, hlink]
  obtain ⟨e, he⟩ := hubFetch_fail_error net requrl (mkFetchOpts "GET" none) hfail
  simp [getRelation, hubGet, hfirst, hurl, he]

/-- C2, witnessed: a present `vulnerabilities` relation on a network where
every fetch rejects resolves to `null` after issuing exactly the one
page-size-overridden GET. -/
theorem c2_present_relation_fetch_failure_witness :
    vulnResource.links.lookup "vulnerabilities"
        = some ["https://hub.example.com/api/v1/vulns"]
    ∧ getRequestUrl stHub (.str "https://hub.example.com/api/v1/vulns")
        [("limit", JSValue.num 10000)] = .ok vulnsRelReqUrl
    ∧ (∀ r, netReject (requestOf vulnsRelReqUrl (mkFetchOpts "GET" none)) = .respond r →
        r.ok = false)
    ∧ getRelation stHub netReject vulnResource "vulnerabilities"
        = ([requestOf vulnsRelReqUrl (mkFetchOpts "GET" none)], .ok JSValue.null) :=
  ⟨rfl, rfl, by intro r h; simp [netReject] at h,
    c2_present_relation_fetch_failure_yields_null stHub netReject vulnResource
      "vulnerabilities" "https://hub.example.com/api/v1/vulns" [] vulnsRelReqUrl
      rfl rfl (by intro r h; simp [netReject] at h)⟩

/-- C4: `Hub.fetch` decodes the body with `response.json().catch(() => null)`
(a decode failure yields a `null` body, not a thrown error); on an HTTP
failure status it raises an error carrying the body's `errorMessage` field
when the body was decoded, and a `TypeError` — the decode-failure indicator
produced by reading `errorMessage` off the `null` body — when it was not;
on a success status it returns the decoded body. -/
theorem c4_fetch_error_channel (net : Net) (url : URL) (opts : FetchOpts)
    (r : HttpResponse) (hresp : net (requestOf url opts) = .respond r) :
    (r.ok = true → hubFetch net url opts = .ok (r.json.getD JSValue.null))
    ∧ (∀ b, r.ok = false → r.json = some b → b ≠ .null → b ≠ .undefined →
        hubFetch net url opts = .error (.jsError (getFieldT b "errorMessage")))
    ∧ (r.ok = false → r.json = none →
        hubFetch net url opts
          = .error (.typeError "Cannot read properties of null (reading errorMessage)")) := by
  refine ⟨?_, ?_, ?_⟩
  · intro hok
    simp [hubFetch, hresp, hok]
  · intro b hok hjson hnn hnu
    cases b <;> simp_all [hubFetch, propAccess]
  · intro hok hjson
    simp [hubFetch, hresp, hok, hjson, propAccess]

/-- C4, witnessed: a failure status with decoded body
`{ errorMessage: "boom" }` raises an error carrying `"boom"`. -/
theorem c4_fetch_error_channel_witness :
    netBoom (requestOf urlW (mkFetchOpts "GET" none)) = .respond respBoom
    ∧ hubFetch netBoom urlW (mkFetchOpts "GET" none) = .error (.jsError (.str "boom")) :=
  ⟨rfl,
    (c4_fetch_error_channel netBoom urlW (mkFetchOpts "GET" none) respBoom rfl).2.1
      (.obj [("errorMessage", .str "boom")]) rfl rfl nofun nofun⟩

/-- With a parseable configured origin and a granting permission
collaborator, `login` issues exactly the form-urlencoded security-check
POST. -/
theorem login_post_log (st : Option String) (net : Net)
    (perm : String → Except JSError Unit) (username password : String) (u : URL)
    (hne : getOrigin st ≠ "") (hp : perm (getOrigin st) = .ok ())
    (hparse : URL.parse (getOrigin st) = some u) :
    (login st net perm username password).1
      = [{ url := { u with pathname := "/j_spring_security_check" },
           method := "POST",
           headers := [("Content-type", "application/x-www-form-urlencoded; charset=UTF-8")],
           body := some ("j_username=" ++ username ++ "&j_password=" ++ password),
           credentials := "include" }] := by
  have hlead : hasLead ['/'] "/j_spring_security_check".data = true := rfl
  have hurl : getRequestUrl st (.str "/j_spring_security_check") [] =
      .ok { u with pathname := "/j_spring_security_check" } := by
    simp [getRequestUrl, hlead, hparse]
  have hpost : hubPost st net (.str "/j_spring_security_check") none
      (some { headers := [("Content-type", "application/x-www-form-urlencoded; charset=UTF-8")],
              body := some ("j_username=" ++ username ++ "&j_password=" ++ password) })
      = ([{ url := { u with pathname := "/j_spring_security_check" },
            method := "POST",
            headers := [("Content-type", "application/x-www-form-urlencoded; charset=UTF-8")],
            body := some ("j_username=" ++ username ++ "&j_password=" ++ password),
            credentials := "include" }],
          .ok (hubFetch net { u with pathname := "/j_spring_security_check" }
            (mkFetchOpts "POST"
              (some { headers :=
                        [("Content-type", "application/x-www-form-urlencoded; charset=UTF-8")],
                      body := some ("j_username=" ++ username ++ "&j_password=" ++ password) })))) := by
    unfold hubPost
    rw [show ((none : Option (List (String × JSValue))).getD []) = [] from rfl, hurl]
    simp [mkFetchOpts, requestOf]
  simp only [login, beq_iff_eq, if_neg hne, hp, hpost]

/-- C6: `login` with the stored Origin unset fails at once with the
configuration error and issues zero requests; with an Origin set, a failing
permission check fails the whole operation with that failure before any
request is issued; and when the permission check succeeds (and the origin
parses), exactly the form-urlencoded POST to `/j_spring_security_check` is
issued. -/
theorem c6_login_gating (st : Option String) (net : Net)
    (perm : String → Except JSError Unit) (username password : String) :
    (getOrigin st = "" →
      login st net perm username password
        = ([], .error (.jsError (.str "No Hub origin saved"))))
    ∧ (∀ e, getOrigin st ≠ "" → perm (getOrigin st) = .error e →
      login st net perm username password = ([], .error e))
    ∧ (∀ u, getOrigin st ≠ "" → perm (getOrigin st) = .ok () →
        URL.parse (getOrigin st) = some u →
      (login st net perm username password).1
        = [{ url := { u with pathname := "/j_spring_security_check" },
             method := "POST",
             headers := [("Content-type", "application/x-www-form-urlencoded; charset=UTF-8")],
             body := some ("j_username=" ++ username ++ "&j_password=" ++ password),
             credentials := "include" }]) := by
  refine ⟨?_, ?_, ?_⟩
  · intro h0
    simp [login, h0]
  · intro e hne hp
    simp only [login, beq_iff_eq, if_neg hne, hp]
  · intro u hne hp hparse
    exact login_post_log st net perm username password u hne hp hparse

/-- C6, witnessed: unset origin fails with the configuration error and no
request; a denied permission check fails with the denial and no request;
with origin `https://hub.example.com` and a granting check, exactly the
security-check POST goes out. -/
theorem c6_login_gating_witness :
    getOrigin none = ""
    ∧ login none netReject permOk "alice" "pw"
        = ([], .error (.jsError (.str "No Hub origin saved")))
    ∧ getOrigin stHub ≠ ""
    ∧ permFail (getOrigin stHub) = .error (.jsError (.str "denied"))
    ∧ login stHub netReject permFail "alice" "pw"
        = ([], .error (.jsError (.str "denied")))
    ∧ permOk (getOrigin stHub) = .ok ()
    ∧ URL.parse (getOrigin stHub) = some hubBaseURL
    ∧ (login stHub netReject permOk "alice" "pw").1
        = [{ url := { hubBaseURL with pathname := "/j_spring_security_check" },
             method := "POST",
             headers := [("Content-type", "application/x-www-form-urlencoded; charset=UTF-8")],
             body := some ("j_username=" ++ "alice" ++ "&j_password=" ++ "pw"),
             credentials := "include" }] :=
  ⟨rfl,
    (c6_login_gating none netReject permOk "alice" "pw").1 rfl,
    by simp [getOrigin, stHub],
    rfl,
    (c6_login_gating stHub netReject permFail "alice" "pw").2.1
      (.jsError (.str "denied")) (by simp [getOrigin, stHub]) rfl,
    rfl,
    by decide,
    (c6_login_gating stHub netReject permOk "alice" "pw").2.2 hubBaseURL
      (by simp [getOrigin, stHub]) rfl (by decide)⟩

/-- C10: the login POST body is the literal concatenation
`j_username=` ++ username ++ `&j_password=` ++ password, with no
percent-encoding applied to either value; consequently a value containing
`&` changes the form's field structure — the body for username
`alice&j_password=evil` splits into three `&`-separated fields instead of
two. -/
theorem c10_login_body_literal (st : Option String) (net : Net)
    (perm : String → Except JSError Unit) (username password : String) (u : URL)
    (hne : getOrigin st ≠ "") (hp : perm (getOrigin st) = .ok ())
    (hparse : URL.parse (getOrigin st) = some u) :
    ((login st net perm username password).1.map HttpRequest.body)
      = [some ("j_username=" ++ username ++ "&j_password=" ++ password)]
    ∧ (splitAllOn '&'
        ("j_username=" ++ "alice&j_password=evil" ++ "&j_password=" ++ "pw").data).length
      = 3 := by
  constructor
  · rw [login_post_log st net perm username password u hne hp hparse]
    rfl
  · decide

/-- C10, witnessed at username `alice` and password `pw` on the configured
origin. -/
theorem c10_login_body_literal_witness :
    getOrigin stHub ≠ ""
    ∧ permOk (getOrigin stHub) = .ok ()
    ∧ URL.parse (getOrigin stHub) = some hubBaseURL
    ∧ ((login stHub netReject permOk "alice" "pw").1.map HttpRequest.body)
        = [some ("j_username=" ++ "alice" ++ "&j_password=" ++ "pw")] :=
  ⟨by simp [getOrigin, stHub], rfl, by decide,
    (c10_login_body_literal stHub netReject permOk "alice" "pw" hubBaseURL
      (by simp [getOrigin, stHub]) rfl (by decide)).1⟩

/-- C7: `getComponentVulnerabilities` sets each fetched vulnerability's
`detailsUrl` by source — `NVD` to the NVD search URL templated with the
vulnerability name, `VULNDB` to a path on the stored Origin, any other
source to the empty string — shown for the enrichment rule at any name and
origin, and end to end on a fetched list containing one entry of each kind
with Origin `https://hub.example.com` and name `CVE-2020-1`. -/
theorem c7_vulnerability_details_url (st : Option String) (name src : String) :
    (vulnDetailsUrl st (.obj [("source", .str "NVD"), ("vulnerabilityName", .str name)])
      = "https://web.nvd.nist.gov/view/vuln/search-results?query=" ++ name
          ++ "&search_type=all&cves=on")
    ∧ (vulnDetailsUrl st (.obj [("source", .str "VULNDB"), ("vulnerabilityName", .str name)])
      = getOrigin st ++ "/#vulnerabilities/id:" ++ name ++ "/view:overview")
    ∧ (src ≠ "NVD" → src ≠ "VULNDB" →
      vulnDetailsUrl st (.obj [("source", .str src), ("vulnerabilityName", .str name)]) = "")
    ∧ (getComponentVulnerabilities stHub netVulns vulnResource).2
      = .ok (.arr
          [.obj [("source", .str "NVD"), ("vulnerabilityName", .str "CVE-2020-1"),
                 ("detailsUrl", .str "https://web.nvd.nist.gov/view/vuln/search-results?query=CVE-2020-1&search_type=all&cves=on")],
           .obj [("source", .str "VULNDB"), ("vulnerabilityName", .str "CVE-2020-1"),
                 ("detailsUrl", .str "https://hub.example.com/#vulnerabilities/id:CVE-2020-1/view:overview")],
           .obj [("source", .str "OTHER"), ("vulnerabilityName", .str "CVE-2020-1"),
                 ("detailsUrl", .str "")]]) := by
  refine ⟨?_, ?_, ?_, ?_⟩
  · simp [vulnDetailsUrl, getFieldT, lookupField, jsStrictEq, jsToString, jsPrimToString]
  · simp [vulnDetailsUrl, getFieldT, lookupField, jsStrictEq, jsToString, jsPrimToString]
  · intro h1 h2
    simp [vulnDetailsUrl, getFieldT, lookupField, jsStrictEq, jsToString, jsPrimToString,
      h1, h2]
  · rfl

/-- C7, witnessed on the three concrete entries. -/
theorem c7_vulnerability_details_url_witness :
    vulnDetailsUrl stHub vulnNVD
      = "https://web.nvd.nist.gov/view/vuln/search-results?query=CVE-2020-1&search_type=all&cves=on"
    ∧ vulnDetailsUrl stHub vulnVULNDB
      = "https://hub.example.com/#vulnerabilities/id:CVE-2020-1/view:overview"
    ∧ ("OTHER" : String) ≠ "NVD"
    ∧ ("OTHER" : String) ≠ "VULNDB"
    ∧ vulnDetailsUrl stHub vulnOTHER = "" :=
  ⟨(c7_vulnerability_details_url stHub "CVE-2020-1" "OTHER").1,
    (c7_vulnerability_details_url stHub "CVE-2020-1" "OTHER").2.1,
    by decide, by decide,
    (c7_vulnerability_details_url stHub "CVE-2020-1" "OTHER").2.2.1
      (by decide) (by decide)⟩

/-- C8: `getMatchingBOMComponents` returns exactly the BOM entries whose
`componentVersion` field is strictly (string-)equal to the external
component's `version` field, each project version's matching entries
flattened in the order of the input `projectVersions` sequence. -/
theorem c8_matching_bom_components (st : Option String) (net : Net)
    (ecFields : List (String × JSValue)) (v : String) (pvs : List Resource)
    (l : Resource → List JSValue)
    (hver : lookupField ecFields "version" = some (.str v))
    (hbom : ∀ pv ∈ pvs, (getProjectVersionComponents st net pv).2 = .ok (.arr (l pv)))
    (hclean : ∀ pv ∈ pvs, ∀ c ∈ l pv, c ≠ .null ∧ c ≠ .undefined) :
    (getMatchingBOMComponents st net (.obj ecFields) pvs).2
      = .ok (.arr ((pvs.map fun pv =>
          (l pv).filter fun c =>
            jsStrictEq (getFieldT c "componentVersion") (.str v)).flatten)) := by
  have hv : getFieldT (.obj ecFields) "version" = .str v := by
    simp [getFieldT, hver]
  have hbranch : ∀ pv ∈ pvs, (matchingBomBranch st net (.str v) pv).2
      = .ok ((l pv).filter fun c =>
          jsStrictEq (getFieldT c "componentVersion") (.str v)) := by
    intro pv hpv
    have hb := hbom pv hpv
    unfold matchingBomBranch
    cases hg : getProjectVersionComponents st net pv with
    | mk log x =>
        rw [hg] at hb
        simp at hb
        subst hb
        simp [filterBomComponents_eq_filter _ _ (hclean pv hpv)]
  have hall := promiseAll_map_ok pvs
    (fun pv => (matchingBomBranch st net (.str v) pv).2)
    (fun pv => (l pv).filter fun c =>
      jsStrictEq (getFieldT c "componentVersion") (.str v)) hbranch
  simp only [getMatchingBOMComponents, hv, List.map_map]
  rw [show (Prod.snd ∘ matchingBomBranch st net (JSValue.str v))
      = (fun pv => (matchingBomBranch st net (JSValue.str v) pv).2) from rfl]
  rw [hall]
  rfl

/-- C8, witnessed on the claim's example: version `V1` against pv1's BOM
`{V1, V2}` and pv2's BOM `{V1}` returns exactly the two `V1` entries, pv1's
before pv2's. -/
theorem c8_matching_bom_components_witness :
    lookupField [("version", JSValue.str "V1")] "version" = some (.str "V1")
    ∧ (∀ pv ∈ [pv1, pv2],
        (getProjectVersionComponents stHub netBom pv).2 = .ok (.arr (bomOf pv)))
    ∧ (∀ pv ∈ [pv1, pv2], ∀ c ∈ bomOf pv, c ≠ JSValue.null ∧ c ≠ JSValue.undefined)
    ∧ (getMatchingBOMComponents stHub netBom extCompV1 [pv1, pv2]).2
        = .ok (.arr [bomC11, bomC21]) := by
  have hbom : ∀ pv ∈ [pv1, pv2],
      (getProjectVersionComponents stHub netBom pv).2 = .ok (.arr (bomOf pv)) := by
    intro pv hpv
    simp only [List.mem_cons, List.not_mem_nil, or_false] at hpv
    rcases hpv with rfl | rfl
    · rfl
    · rfl
  have hclean : ∀ pv ∈ [pv1, pv2], ∀ c ∈ bomOf pv,
      c ≠ JSValue.null ∧ c ≠ JSValue.undefined := by
    intro pv hpv
    simp only [List.mem_cons, List.not_mem_nil, or_false] at hpv
    rcases hpv with rfl | rfl
    · intro c hc
      have hc2 : c ∈ [bomC11, bomC12] := hc
      simp only [List.mem_cons, List.not_mem_nil, or_false] at hc2
      rcases hc2 with rfl | rfl
      · exact ⟨nofun, nofun⟩
      · exact ⟨nofun, nofun⟩
    · intro c hc
      have hc2 : c ∈ [bomC21] := hc
      simp only [List.mem_cons, List.not_mem_nil, or_false] at hc2
      rcases hc2 with rfl
      exact ⟨nofun, nofun⟩
  exact ⟨rfl, hbom, hclean,
    c8_matching_bom_components stHub netBom [("version", JSValue.str "V1")] "V1"
      [pv1, pv2] bomOf rfl hbom hclean⟩

/-- C9: `getComponentVersionReferenceProjects` returns a sequence
position-aligned with the fetched references — a reference whose
project-version fetch fails (rejects or HTTP-failure status) contributes
`null`, a reference whose fetch succeeds with a project-version object
contributes that object decorated with the reference's `projectName`, and a
reference list of length n yields exactly the n per-reference outcomes in
input order. -/
theorem c9_reference_projects (st : Option String) (net : Net) :
    (∀ (pn u : String) (requrl : URL),
      getRequestUrl st (.str u) [] = .ok requrl →
      (∀ r, net (requestOf requrl (mkFetchOpts "GET" none)) = .respond r → r.ok = false) →
      (getReferenceProjectVersion st net
          (.obj [("projectName", .str pn), ("projectVersionUrl", .str u)])).2
        = .ok JSValue.null)
    ∧ (∀ (pn u : String) (requrl : URL) (pvFields : List (String × JSValue)),
      getRequestUrl st (.str u) [] = .ok requrl →
      net (requestOf requrl (mkFetchOpts "GET" none))
        = .respond { ok := true, json := some (.obj pvFields) } →
      (getReferenceProjectVersion st net
          (.obj [("projectName", .str pn), ("projectVersionUrl", .str u)])).2
        = .ok (.obj (setField pvFields "projectName" (.str pn))))
    ∧ (∀ (cv : Resource) (refs : List JSValue) (g : JSValue → JSValue),
      (getComponentVersionReferences st net cv).2 = .ok (.arr refs) →
      (∀ ref ∈ refs, (getReferenceProjectVersion st net ref).2 = .ok (g ref)) →
      (getComponentVersionReferenceProjects st net cv).2 = .ok (.arr (refs.map g))) := by
  refine ⟨?_, ?_, ?_⟩
  · intro pn u requrl hurl hfail
    obtain ⟨e, he⟩ := hubFetch_fail_error net requrl (mkFetchOpts "GET" none) hfail
    have e1 : getFieldT (JSValue.obj [("projectName", JSValue.str pn),
        ("projectVersionUrl", JSValue.str u)]) "projectName" = .str pn := rfl
    have e2 : getFieldT (JSValue.obj [("projectName", JSValue.str pn),
        ("projectVersionUrl", JSValue.str u)]) "projectVersionUrl" = .str u := rfl
    simp only [getReferenceProjectVersion, e1, e2, hubGet]
    rw [show ((none : Option (List (String × JSValue))).getD []) = [] from rfl, hurl]
    dsimp only
    rw [he]
    rfl
  · intro pn u requrl pvFields hurl hresp
    have e1 : getFieldT (JSValue.obj [("projectName", JSValue.str pn),
        ("projectVersionUrl", JSValue.str u)]) "projectName" = .str pn := rfl
    have e2 : getFieldT (JSValue.obj [("projectName", JSValue.str pn),
        ("projectVersionUrl", JSValue.str u)]) "projectVersionUrl" = .str u := rfl
    simp only [getReferenceProjectVersion, e1, e2, hubGet]
    rw [show ((none : Option (List (String × JSValue))).getD []) = [] from rfl, hurl]
    dsimp only
    rw [show hubFetch net requrl (mkFetchOpts "GET" none)
        = .ok (.obj pvFields) by simp [hubFetch, hresp]]
    rfl
  · intro cv refs g hrefs hg
    have hall := promiseAll_map_ok refs
      (fun ref => (getReferenceProjectVersion st net ref).2) g hg
    unfold getComponentVersionReferenceProjects
    cases hr : getComponentVersionReferences st net cv with
    | mk log x =>
        rw [hr] at hrefs
        simp at hrefs
        subst hrefs
        simp only [List.map_map]
        rw [show (Prod.snd ∘ getReferenceProjectVersion st net)
            = (fun ref => (getReferenceProjectVersion st net ref).2) from rfl]
        rw [hall]
        rfl

/-- C9, witnessed on the claim's example: two references, of which the
second's project-version fetch fails, yield a 2-element sequence holding
one `projectName`-tagged project version and one `null`, in reference
order. -/
theorem c9_reference_projects_witness :
    (getComponentVersionReferences stHub netRefs cvRefsResource).2
        = .ok (.arr [refP1, refP2])
    ∧ (∀ ref ∈ [refP1, refP2],
        (getReferenceProjectVersion stHub netRefs ref).2 = .ok (refOutcome ref))
    ∧ (getComponentVersionReferenceProjects stHub netRefs cvRefsResource).2
        = .ok (.arr [.obj (setField pv1Fields "projectName" (.str "P1")), JSValue.null])
    ∧ getRequestUrl stHub (.str "https://hub.example.com/api/pv2") [] = .ok pv2ReqUrl
    ∧ (∀ r, netRefs (requestOf pv2ReqUrl (mkFetchOpts "GET" none))
        = .respond r → r.ok = false)
    ∧ (getReferenceProjectVersion stHub netRefs refP2).2 = .ok JSValue.null
    ∧ netRefs (requestOf pv1ReqUrl (mkFetchOpts "GET" none))
        = .respond { ok := true, json := some (.obj pv1Fields) }
    ∧ (getReferenceProjectVersion stHub netRefs refP1).2
        = .ok (.obj (setField pv1Fields "projectName" (.str "P1"))) := by
  have hg : ∀ ref ∈ [refP1, refP2],
      (getReferenceProjectVersion stHub netRefs ref).2 = .ok (refOutcome ref) := by
    intro ref href
    simp only [List.mem_cons, List.not_mem_nil, or_false] at href
    rcases href with rfl | rfl
    · rfl
    · rfl
  have hfail2 : ∀ r, netRefs (requestOf pv2ReqUrl (mkFetchOpts "GET" none))
      = .respond r → r.ok = false := by
    intro r h
    simp [netRefs, requestOf, mkFetchOpts, pv2ReqUrl] at h
  refine ⟨rfl, hg, ?_, rfl, hfail2, ?_, rfl, ?_⟩
  · exact (c9_reference_projects stHub netRefs).2.2 cvRefsResource [refP1, refP2]
      refOutcome rfl hg
  · exact (c9_reference_projects stHub netRefs).1 "P2" "https://hub.example.com/api/pv2"
      pv2ReqUrl rfl hfail2
  · exact (c9_reference_projects stHub netRefs).2.1 "P1" "https://hub.example.com/api/pv1"
      pv1ReqUrl pv1Fields rfl rfl
